import Mathlib

set_option maxRecDepth 40000

/-!
Verification development for the flat-array Rubik's cube engine
(`rubiksCube.ts`, the flat 54-slot variant, the canonical one per the spec's
design notes; all claim sources point at its line range).

Modelling conventions (JavaScript runtime semantics, as the engine is TS/JS):

* A sticker value is a JS string (`Sticker := String`).  The source's `Color`
  type is the six single-letter codes, but at runtime the solved constant is
  built by `map_face_to_initial_sticker(s).repeat(9)` followed by
  `Array.prototype.flat()`.  `String.prototype.repeat(9)` produces one
  nine-character string and `flat()` does not split strings (it only flattens
  nested arrays), so the runtime constant is an array of SIX nine-character
  strings, not 54 single characters.  The embedding reproduces this.
* A JS array cell read is `Option String`: `none` models `undefined`, which is
  what an out-of-range read (or a hole) yields.  Assigning past the end of a
  JS array extends its `length` and leaves `undefined` holes in between;
  `jsSet` reproduces this.  Holes and explicitly stored `undefined` are
  indistinguishable through every operation the engine performs on cube
  arrays (index reads, spreads, `Object.keys` is only applied to the dense
  constant), so one `none` models both.
* JS `===` on strings is value equality, and `undefined === undefined` is
  true, so decidable equality on `Option String` models `===`/`!==`.
* A thrown exception is modelled as `Option.none` of the whole computation
  (`apply_single_move_to_cube` throws on a token outside the 18 valid moves,
  and the throw propagates through `getCurrentState`/`isSolved`).
* `Math.random`-driven choices in `scramble` are modelled by quantifying over
  the list of (face index, modifier index) picks that the rejection loop
  finally accepts; every in-range pick sequence is a possible outcome.
-/

namespace RubiksCubeMcp

/-- JS string value held in a cube slot (the TS `Sticker` type is a string). -/
abbrev Sticker := String

/-- The TS `type Cube = Sticker[]` — a JS array of sticker strings; `none` is
`undefined` (hole or out-of-range). -/
abbrev Cube := List (Option Sticker)

/-- JS array read `a[i]`: the stored value in range, `undefined` otherwise. -/
def jsGet (a : Cube) (i : Nat) : Option Sticker := a.getD i none

/-- JS array write `a[i] = v`: in range it replaces the cell, past the end it
extends the array with `undefined` holes up to `i` (so `length` becomes
`i + 1`). -/
def jsSet (a : Cube) (i : Nat) (v : Option Sticker) : Cube :=
  if i < a.length then a.set i v
  else a ++ List.replicate (i - a.length) none ++ [v]

/-- The TS `type Face`: one of U, D, F, B, L, R. -/
inductive Face
  | U | D | F | B | L | R
  deriving DecidableEq, Fintype

/-- The one-character JS string for a face, as a character. -/
def faceLetter : Face → Char
  | .U => 'U'
  | .D => 'D'
  | .F => 'F'
  | .B => 'B'
  | .L => 'L'
  | .R => 'R'

/-- Source `map_face_to_initial_sticker`: the solved colour code of
each face (U=yellow, D=white, F=blue, B=green, L=orange, R=red). -/
def map_face_to_initial_sticker : Face → Sticker
  | .U => "Y"
  | .D => "W"
  | .F => "B"
  | .B => "G"
  | .L => "O"
  | .R => "R"

/-- JS `String.prototype.repeat`. -/
def strRepeat (s : String) (n : Nat) : String :=
  String.join (List.replicate n s)

/-- Runtime value of `solved_cube`, exactly as the source constructs it at runtime:
`["U","R","F","D","L","B"].map(s => map_face_to_initial_sticker(s).repeat(9)).flat()`.
`repeat(9)` yields one nine-character string per face and `flat()` is the
identity on an array of strings, so the constant has SIX entries.  The final
`.map some` only injects the JS strings into the `Option` cell model. -/
def solved_cube : Cube :=
  (([Face.U, Face.R, Face.F, Face.D, Face.L, Face.B].map
    (fun s => strRepeat (map_face_to_initial_sticker s) 9)).map some)

/-- Addressing function `S(f, i) = "URFDLB".indexOf(f) * 9 + i - 1`.  `Nat` subtraction agrees with JS for every use site (`i ≥ 1`). -/
def S (f : Face) (i : Nat) : Nat :=
  ("URFDLB".toList.indexOf (faceLetter f)) * 9 + i - 1

/-- Source `perm_from_cycle`: turns a cycle `[a,b,c,d]` into the source/destination
pair list `[(a,b),(b,c),(c,d),(d,a)]`, exactly as the source's loop does. -/
def perm_from_cycle (cycle : List Nat) : List (Nat × Nat) :=
  ((List.range (cycle.length - 1)).map
    (fun i => (cycle.getD i 0, cycle.getD (i + 1) 0)))
  ++ [(cycle.getD (cycle.length - 1) 0, cycle.getD 0 0)]

/-- Move table `u_move`: the five 4-cycles of a clockwise U turn, flattened. -/
def u_move : List (Nat × Nat) :=
  ([perm_from_cycle [S .U 1, S .U 3, S .U 9, S .U 7],
    perm_from_cycle [S .U 2, S .U 6, S .U 8, S .U 4],
    perm_from_cycle [S .F 1, S .L 1, S .B 1, S .R 1],
    perm_from_cycle [S .F 2, S .L 2, S .B 2, S .R 2],
    perm_from_cycle [S .F 3, S .L 3, S .B 3, S .R 3]]).flatten

/-- Move table `r_move`: the five 4-cycles of a clockwise R turn, flattened. -/
def r_move : List (Nat × Nat) :=
  ([perm_from_cycle [S .R 1, S .R 3, S .R 9, S .R 7],
    perm_from_cycle [S .R 2, S .R 6, S .R 8, S .R 4],
    perm_from_cycle [S .U 9, S .B 1, S .D 9, S .F 9],
    perm_from_cycle [S .U 6, S .B 4, S .D 6, S .F 6],
    perm_from_cycle [S .U 3, S .B 7, S .D 3, S .F 3]]).flatten

/-- Move table `f_move`: the five 4-cycles of a clockwise F turn, flattened. -/
def f_move : List (Nat × Nat) :=
  ([perm_from_cycle [S .F 1, S .F 3, S .F 9, S .F 7],
    perm_from_cycle [S .F 2, S .F 6, S .F 8, S .F 4],
    perm_from_cycle [S .U 7, S .R 1, S .D 3, S .L 9],
    perm_from_cycle [S .U 8, S .R 4, S .D 2, S .L 6],
    perm_from_cycle [S .U 9, S .R 7, S .D 1, S .L 3]]).flatten

/-- Move table `b_move`: the five 4-cycles of a clockwise B turn, flattened. -/
def b_move : List (Nat × Nat) :=
  ([perm_from_cycle [S .B 1, S .B 3, S .B 9, S .B 7],
    perm_from_cycle [S .B 2, S .B 6, S .B 8, S .B 4],
    perm_from_cycle [S .U 3, S .L 1, S .D 7, S .R 3],
    perm_from_cycle [S .U 2, S .L 4, S .D 8, S .R 6],
    perm_from_cycle [S .U 1, S .L 7, S .D 9, S .R 9]]).flatten

/-- Move table `l_move`: the five 4-cycles of a clockwise L turn, flattened. -/
def l_move : List (Nat × Nat) :=
  ([perm_from_cycle [S .L 1, S .L 3, S .L 9, S .L 7],
    perm_from_cycle [S .L 2, S .L 6, S .L 8, S .L 4],
    perm_from_cycle [S .U 1, S .F 1, S .D 1, S .B 9],
    perm_from_cycle [S .U 4, S .F 4, S .D 4, S .B 6],
    perm_from_cycle [S .U 7, S .F 7, S .D 7, S .B 3]]).flatten

/-- Move table `d_move`: the five 4-cycles of a clockwise D turn, flattened. -/
def d_move : List (Nat × Nat) :=
  ([perm_from_cycle [S .D 1, S .D 3, S .D 9, S .D 7],
    perm_from_cycle [S .D 2, S .D 6, S .D 8, S .D 4],
    perm_from_cycle [S .F 7, S .R 7, S .B 7, S .L 7],
    perm_from_cycle [S .F 8, S .R 8, S .B 8, S .L 8],
    perm_from_cycle [S .F 9, S .R 9, S .B 9, S .L 9]]).flatten

/-- Source `apply_move`: `new_cube = [...cube]`, then `new_cube[dst] = cube[src]` for
each pair — every read is from the pre-move array, writes accumulate. -/
def apply_move (cube : Cube) (perm : List (Nat × Nat)) : Cube :=
  perm.foldl (fun new_cube x => jsSet new_cube x.2 (jsGet cube x.1)) cube

/-- Source `apply_single_move_to_cube`: dispatch on the move token; `X2` is two and
`X'` three applications of the clockwise table; the default branch throws
(`none`). -/
def apply_single_move_to_cube (cube : Cube) (move : String) : Option Cube :=
  match move with
  | "U" => some (apply_move cube u_move)
  | "U2" => some (apply_move (apply_move cube u_move) u_move)
  | "U\x27" => some (apply_move (apply_move (apply_move cube u_move) u_move) u_move)
  | "D" => some (apply_move cube d_move)
  | "D2" => some (apply_move (apply_move cube d_move) d_move)
  | "D\x27" => some (apply_move (apply_move (apply_move cube d_move) d_move) d_move)
  | "F" => some (apply_move cube f_move)
  | "F2" => some (apply_move (apply_move cube f_move) f_move)
  | "F\x27" => some (apply_move (apply_move (apply_move cube f_move) f_move) f_move)
  | "B" => some (apply_move cube b_move)
  | "B2" => some (apply_move (apply_move cube b_move) b_move)
  | "B\x27" => some (apply_move (apply_move (apply_move cube b_move) b_move) b_move)
  | "L" => some (apply_move cube l_move)
  | "L2" => some (apply_move (apply_move cube l_move) l_move)
  | "L\x27" => some (apply_move (apply_move (apply_move cube l_move) l_move) l_move)
  | "R" => some (apply_move cube r_move)
  | "R2" => some (apply_move (apply_move cube r_move) r_move)
  | "R\x27" => some (apply_move (apply_move (apply_move cube r_move) r_move) r_move)
  | _ => none

/-- Source `getCurrentState`: fold the move history over a copy of the solved
constant; a thrown `Invalid move` propagates as `none`. -/
def getCurrentState (moveHistory : List String) : Option Cube :=
  moveHistory.foldlM (fun cube move => apply_single_move_to_cube cube move) solved_cube

/-- The comparison loop inside `isSolved`: JS length check followed by
element-wise `!==` over every index of the current array. -/
def jsArrayEq (a b : Cube) : Bool :=
  a.length == b.length && (List.range a.length).all (fun i => jsGet a i == jsGet b i)

/-- Source `isSolved`: strict element-wise comparison of the derived state against
the solved constant (`none` if state derivation threw). -/
def isSolved (moveHistory : List String) : Option Bool :=
  (getCurrentState moveHistory).map (fun c => jsArrayEq c solved_cube)

/-- Source `getStickerAt(face, i) = getCurrentState()[S(face, i)]`. -/
def getStickerAt (moveHistory : List String) (f : Face) (i : Nat) :
    Option (Option Sticker) :=
  (getCurrentState moveHistory).map (fun c => jsGet c (S f i))

/-- Character class `[RLUDFB]` of the move regex. -/
def isFaceChar (c : Char) : Bool :=
  c == 'R' || c == 'L' || c == 'U' || c == 'D' || c == 'F' || c == 'B'

/-- Global matching of `/([RLUDFB])(['2]?)/g` over a character list: scan left
to right; at a face letter, take it plus an optional `'`/`2` suffix as a
token; skip every other character. -/
def matchMoves : List Char → List String
  | [] => []
  | [c] => if isFaceChar c then [String.mk [c]] else []
  | c :: m :: rest =>
    if isFaceChar c then
      if m == '\x27' || m == '2' then String.mk [c, m] :: matchMoves rest
      else String.mk [c] :: matchMoves (m :: rest)
    else matchMoves (m :: rest)

/-- JS `String.prototype.trim`: strip whitespace from both ends. -/
def jsTrim (l : List Char) : List Char :=
  ((l.dropWhile Char.isWhitespace).reverse.dropWhile Char.isWhitespace).reverse

/-- Source `applyMoveSequence`: match the move regex over the trimmed input; push all
matches onto the history (the `filter(m => m)` is the identity since every
match is non-empty); if there is no match and the trimmed input is non-empty,
only warn (second component `true`).  Never throws. -/
def applyMoveSequence (moveHistory : List String) (sequence : String) :
    List String × Bool :=
  let trimmed := jsTrim sequence.toList
  let moves := matchMoves trimmed
  if moves ≠ [] then (moveHistory ++ moves, false)
  else if trimmed ≠ [] then (moveHistory, true)
  else (moveHistory, false)

/-- Source `getMoveHistory`: a copy of the history (value-identical to it). -/
def getMoveHistory (moveHistory : List String) : List String := moveHistory

/-- Source `reset`: clear the history. -/
def reset (_moveHistory : List String) : List String := []

/-- JS `Object.keys` on a dense array: the index strings `"0" … "len-1"`.
The source calls it on `this.initialState`, which at runtime is the 6-entry
`solved_cube` array, so the "faces" it draws from are `["0",…,"5"]`. -/
def objectKeys (a : Cube) : List String :=
  (List.range a.length).map (fun i => toString i)

/-- Source `const modifiers`: the three modifier strings (none, prime, double). -/
def modifiers : List String := ["", "\x27", "2"]

/-- Source `scramble`: reset, draw `numMoves` random face/modifier picks, join them
with spaces and feed the result through `applyMoveSequence`.  `picks` is the
sequence of (face index, modifier index) pairs the `Math.random` rejection
loop finally accepts — one pair per loop iteration, so `picks.length` is the
requested `numMoves`; quantifying over all in-range pick lists covers every
possible random outcome (the do-while only rejects some face indices, it
never changes the range they are drawn from). -/
def scramble (moveHistory : List String) (picks : List (Nat × Nat)) :
    List String × Bool :=
  let faces := objectKeys solved_cube
  let randomMoves := picks.map
    (fun p => (faces.getD p.1 ("")) ++ (modifiers.getD p.2 ("")))
  applyMoveSequence (reset moveHistory) (String.intercalate (" ") randomMoves)

/-- The 18 move tokens `[RLUDFB]['2]?` that the dispatcher accepts. -/
def validMoves : List String :=
  ["U", "U2", "U\x27", "D", "D2", "D\x27", "F", "F2", "F\x27",
   "B", "B2", "B\x27", "L", "L2", "L\x27", "R", "R2", "R\x27"]

/-- Histories reachable through the public interface: fresh construction
(with or without an initial sequence — the constructor just calls
`applyMoveSequence`), `applyMoveSequence`, `reset`, and `scramble`. -/
inductive Reachable : List String → Prop
  | init : Reachable []
  | applySeq (h : List String) (s : String) :
      Reachable h → Reachable (applyMoveSequence h s).1
  | resetOp (h : List String) : Reachable h → Reachable (reset h)
  | scrambleOp (h : List String) (picks : List (Nat × Nat)) :
      Reachable h → Reachable (scramble h picks).1

/-!
Helper lemmas shared by the claim theorems.
-/

/-- The JS comparison loop of `isSolved` is exactly value equality of the two
arrays in the cell model. -/
theorem jsArrayEq_true_iff (a b : Cube) : jsArrayEq a b = true ↔ a = b := by
  unfold jsArrayEq
  rw [Bool.and_eq_true, List.all_eq_true]
  constructor
  · rintro ⟨h1, h2⟩
    have hlen : a.length = b.length := by simpa using h1
    refine List.ext_getElem hlen ?_
    intro n h₁ h₂
    have hmem := h2 n (List.mem_range.mpr h₁)
    rw [beq_iff_eq] at hmem
    simp only [jsGet] at hmem
    rwa [List.getD_eq_getElem _ _ h₁, List.getD_eq_getElem _ _ h₂] at hmem
  · rintro rfl
    exact ⟨by simp, fun i _ => by simp⟩

/-- A character accepted by `[RLUDFB]` is one of the six face letters. -/
theorem isFaceChar_cases {c : Char} (h : isFaceChar c = true) :
    c = 'R' ∨ c = 'L' ∨ c = 'U' ∨ c = 'D' ∨ c = 'F' ∨ c = 'B' := by
  simp only [isFaceChar, Bool.or_eq_true, beq_iff_eq] at h
  tauto

/-- Every token the move regex produces is one of the 18 valid move
strings. -/
theorem matchMoves_valid : ∀ (l : List Char) (t : String),
    t ∈ matchMoves l → t ∈ validMoves
  | [], t => by simp [matchMoves]
  | [c], t => by
      intro ht
      by_cases hc : isFaceChar c = true
      · simp only [matchMoves, hc, if_true, List.mem_singleton] at ht
        subst ht
        rcases isFaceChar_cases hc with h | h | h | h | h | h <;> subst h <;> decide
      · simp [matchMoves, hc] at ht
  | c :: m :: rest, t => by
      intro ht
      by_cases hc : isFaceChar c = true
      · by_cases hm : (m == '\x27' || m == '2') = true
        · simp only [matchMoves, hc, hm, if_true, List.mem_cons] at ht
          rcases ht with h | h
          · subst h
            have hm' : m = '\x27' ∨ m = '2' := by simpa using hm
            rcases isFaceChar_cases hc with h1 | h1 | h1 | h1 | h1 | h1 <;>
              rcases hm' with h2 | h2 <;> subst h1 <;> subst h2 <;> decide
          · exact matchMoves_valid rest t h
        · simp only [matchMoves, hc, hm, if_true, if_false, Bool.false_eq_true,
            List.mem_cons] at ht
          rcases ht with h | h
          · subst h
            rcases isFaceChar_cases hc with h1 | h1 | h1 | h1 | h1 | h1 <;>
              subst h1 <;> decide
          · exact matchMoves_valid (m :: rest) t h
      · simp only [matchMoves, hc, Bool.false_eq_true, if_false] at ht
        exact matchMoves_valid (m :: rest) t ht

/-- The history after `applyMoveSequence` is the old history with the parsed
tokens appended (the append is empty when nothing matched). -/
theorem applyMoveSequence_fst (h : List String) (s : String) :
    (applyMoveSequence h s).1 = h ++ matchMoves (jsTrim s.toList) := by
  simp only [applyMoveSequence]
  split_ifs with h1 h2 <;> simp_all

/-- When nothing matched but the trimmed input was non-empty, the warning
branch is taken. -/
theorem applyMoveSequence_snd_true (h : List String) (s : String)
    (hm : matchMoves (jsTrim s.toList) = []) (htr : jsTrim s.toList ≠ []) :
    (applyMoveSequence h s).2 = true := by
  simp only [applyMoveSequence]
  split_ifs with h1 <;> simp_all

/-- `applyMoveSequence` preserves all-tokens-valid. -/
theorem applyMoveSequence_tokens_valid (h : List String) (s : String)
    (hall : ∀ t ∈ h, t ∈ validMoves) :
    ∀ t ∈ (applyMoveSequence h s).1, t ∈ validMoves := by
  intro t ht
  rw [applyMoveSequence_fst] at ht
  rcases List.mem_append.mp ht with h1 | h1
  exacts [hall t h1, matchMoves_valid _ t h1]

/-- The dispatcher never reaches its throwing default branch on one of the 18
valid tokens. -/
theorem apply_single_move_isSome {t : String} (ht : t ∈ validMoves)
    (c : Cube) : (apply_single_move_to_cube c t).isSome := by
  simp only [validMoves] at ht
  fin_cases ht <;> rfl

/-- Folding a history of valid tokens over any start cube never throws. -/
theorem foldl_moves_isSome :
    ∀ (h : List String) (c : Cube), (∀ t ∈ h, t ∈ validMoves) →
      (List.foldlM (fun cube move => apply_single_move_to_cube cube move) c h).isSome
  | [], _, _ => by simp [List.foldlM_nil]
  | t :: rest, c, hv => by
      have h1 : (apply_single_move_to_cube c t).isSome :=
        apply_single_move_isSome (hv t (List.mem_cons_self t rest)) c
      obtain ⟨c2, hc2⟩ := Option.isSome_iff_exists.mp h1
      rw [List.foldlM_cons]
      simp only [hc2, Option.bind_eq_bind, Option.some_bind]
      exact foldl_moves_isSome rest c2 (fun t' ht' => hv t' (List.mem_cons_of_mem _ ht'))

/-- State derivation never throws on a history of valid tokens. -/
theorem getCurrentState_isSome (h : List String)
    (hv : ∀ t ∈ h, t ∈ validMoves) : (getCurrentState h).isSome :=
  foldl_moves_isSome h solved_cube hv

/-- Unfolding of `scramble` as a single `applyMoveSequence` call on the
cleared history. -/
theorem scramble_eq (h : List String) (picks : List (Nat × Nat)) :
    scramble h picks
      = applyMoveSequence []
          (String.intercalate (" ")
            (picks.map (fun p =>
              ((objectKeys solved_cube).getD p.1 ("")) ++ (modifiers.getD p.2 (""))))) :=
  rfl

/-- Every history reachable through the public interface consists of valid
tokens only. -/
theorem reachable_tokens_valid {h : List String} (hr : Reachable h) :
    ∀ t ∈ h, t ∈ validMoves := by
  induction hr with
  | init => simp
  | applySeq h s _ ih => exact applyMoveSequence_tokens_valid h s ih
  | resetOp h _ _ => simp [reset]
  | scrambleOp h picks _ _ =>
      rw [scramble_eq]
      exact applyMoveSequence_tokens_valid [] _ (by simp)

/-- A JS array write never shrinks the array. -/
theorem jsSet_length_ge (a : Cube) (i : Nat) (v : Option Sticker) :
    a.length ≤ (jsSet a i v).length := by
  unfold jsSet
  split_ifs with h
  · simp
  · simp only [List.length_append, List.length_replicate, List.length_cons,
      List.length_nil]
    omega

/-- Applying a permutation table never shrinks the array. -/
theorem apply_move_length_ge (cube : Cube) (perm : List (Nat × Nat)) :
    cube.length ≤ (apply_move cube perm).length := by
  unfold apply_move
  suffices hgen : ∀ (p : List (Nat × Nat)) (b : Cube),
      b.length ≤ (p.foldl (fun new_cube x => jsSet new_cube x.2 (jsGet cube x.1)) b).length by
    exact hgen perm cube
  intro p
  induction p with
  | nil => intro b; simp
  | cons x xs ih =>
      intro b
      rw [List.foldl_cons]
      exact le_trans (jsSet_length_ge b x.2 (jsGet cube x.1))
        (ih (jsSet b x.2 (jsGet cube x.1)))

/-- Two applications of permutation tables never shrink the array. -/
theorem apply_move2_length_ge (c : Cube) (p q : List (Nat × Nat)) :
    c.length ≤ (apply_move (apply_move c p) q).length :=
  le_trans (apply_move_length_ge c p) (apply_move_length_ge _ q)

/-- Three applications of permutation tables never shrink the array. -/
theorem apply_move3_length_ge (c : Cube) (p q r : List (Nat × Nat)) :
    c.length ≤ (apply_move (apply_move (apply_move c p) q) r).length :=
  le_trans (apply_move2_length_ge c p q) (apply_move_length_ge _ r)

/-- A successful dispatch of a valid move never shrinks the array. -/
theorem apply_single_length_ge {c c' : Cube} {t : String} (ht : t ∈ validMoves)
    (h : apply_single_move_to_cube c t = some c') : c.length ≤ c'.length := by
  simp only [validMoves, List.mem_cons, List.not_mem_nil, or_false] at ht
  rcases ht with rfl | rfl | rfl | rfl | rfl | rfl | rfl | rfl | rfl | rfl | rfl |
    rfl | rfl | rfl | rfl | rfl | rfl | rfl
  · obtain rfl := Option.some.inj h
    exact apply_move_length_ge c u_move
  · obtain rfl := Option.some.inj h
    exact apply_move2_length_ge c u_move u_move
  · obtain rfl := Option.some.inj h
    exact apply_move3_length_ge c u_move u_move u_move
  · obtain rfl := Option.some.inj h
    exact apply_move_length_ge c d_move
  · obtain rfl := Option.some.inj h
    exact apply_move2_length_ge c d_move d_move
  · obtain rfl := Option.some.inj h
    exact apply_move3_length_ge c d_move d_move d_move
  · obtain rfl := Option.some.inj h
    exact apply_move_length_ge c f_move
  · obtain rfl := Option.some.inj h
    exact apply_move2_length_ge c f_move f_move
  · obtain rfl := Option.some.inj h
    exact apply_move3_length_ge c f_move f_move f_move
  · obtain rfl := Option.some.inj h
    exact apply_move_length_ge c b_move
  · obtain rfl := Option.some.inj h
    exact apply_move2_length_ge c b_move b_move
  · obtain rfl := Option.some.inj h
    exact apply_move3_length_ge c b_move b_move b_move
  · obtain rfl := Option.some.inj h
    exact apply_move_length_ge c l_move
  · obtain rfl := Option.some.inj h
    exact apply_move2_length_ge c l_move l_move
  · obtain rfl := Option.some.inj h
    exact apply_move3_length_ge c l_move l_move l_move
  · obtain rfl := Option.some.inj h
    exact apply_move_length_ge c r_move
  · obtain rfl := Option.some.inj h
    exact apply_move2_length_ge c r_move r_move
  · obtain rfl := Option.some.inj h
    exact apply_move3_length_ge c r_move r_move r_move

/-- A successful replay of a valid history never shrinks the array. -/
theorem fold_length_ge :
    ∀ (l : List String) (c c' : Cube), (∀ u ∈ l, u ∈ validMoves) →
      List.foldlM (fun cube move => apply_single_move_to_cube cube move) c l = some c' →
      c.length ≤ c'.length
  | [], c, c', _, h => by
      simp only [List.foldlM_nil, pure, Option.some.injEq] at h
      subst h
      exact le_rfl
  | t :: rest, c, c', hv, h => by
      rw [List.foldlM_cons] at h
      cases hstep : apply_single_move_to_cube c t with
      | none => rw [hstep] at h; simp at h
      | some c2 =>
          rw [hstep] at h
          simp only [Option.bind_eq_bind, Option.some_bind] at h
          exact le_trans
            (apply_single_length_ge (hv t (List.mem_cons_self t rest)) hstep)
            (fold_length_ge rest c2 c'
              (fun u hu => hv u (List.mem_cons_of_mem _ hu)) h)

/-- Arrays of different lengths never compare equal in the JS loop. -/
theorem jsArrayEq_false_of_length_ne {a b : Cube} (h : a.length ≠ b.length) :
    jsArrayEq a b = false := by
  unfold jsArrayEq
  have hb : (a.length == b.length) = false := by simpa using h
  rw [hb, Bool.false_and]

/-- Any valid history whose first move already grows the derived array past
the 6-entry runtime solved constant can never report solved again: `jsSet`
only ever grows arrays, so the final length stays above 6 and the strict
length check in `isSolved` fails. -/
theorem isSolved_false_after_first_move (t : String) (mv : List (Nat × Nat))
    (rest : List String)
    (hfirst : apply_single_move_to_cube solved_cube t
      = some (apply_move solved_cube mv))
    (hlen : 6 < (apply_move solved_cube mv).length)
    (hvalid : ∀ u ∈ (t :: rest), u ∈ validMoves) :
    isSolved (t :: rest) = some false := by
  obtain ⟨c, hc⟩ := Option.isSome_iff_exists.mp (getCurrentState_isSome _ hvalid)
  have hc' := hc
  unfold getCurrentState at hc'
  rw [List.foldlM_cons, hfirst] at hc'
  simp only [Option.bind_eq_bind, Option.some_bind] at hc'
  have hge := fold_length_ge _ _ _
    (fun u hu => hvalid u (List.mem_cons_of_mem _ hu)) hc'
  have h6 : solved_cube.length = 6 := rfl
  have hne : jsArrayEq c solved_cube = false :=
    jsArrayEq_false_of_length_ne (by omega)
  unfold isSolved
  rw [hc]
  simp [hne]

/-!
Claim theorems.
-/

/-- Claim C1 (confirmed): for every history whose state derivation does not
throw — which includes every history reachable through the public interface —
`isSolved` returns `true` exactly when the derived current array is
element-wise identical to the solved constant; it never returns `true` for a
state that differs from the solved constant in any slot. -/
theorem isSolved_iff_state_eq_solved_constant (h : List String) (c : Cube)
    (hc : getCurrentState h = some c) :
    isSolved h = some true ↔ c = solved_cube := by
  simp [isSolved, hc, jsArrayEq_true_iff]

/-- Witness for C1: the fresh engine, whose state is the solved constant and
whose `isSolved` is `true`. -/
theorem isSolved_iff_state_eq_solved_constant_witness :
    isSolved [] = some true ↔ solved_cube = solved_cube :=
  isSolved_iff_state_eq_solved_constant [] solved_cube rfl

/-- Claim C2 (code bug shown): on a fresh engine, applying each face's quarter
turn four times does NOT return the cube to the solved state — `isSolved` is
`false` for all six faces, because every turn writes slots ≥ 9 and so grows
the derived array past the 6-entry runtime solved constant. -/
theorem four_quarter_turns_not_solved :
    isSolved (applyMoveSequence [] ("U U U U")).1 = some false ∧
    isSolved (applyMoveSequence [] ("D D D D")).1 = some false ∧
    isSolved (applyMoveSequence [] ("F F F F")).1 = some false ∧
    isSolved (applyMoveSequence [] ("B B B B")).1 = some false ∧
    isSolved (applyMoveSequence [] ("L L L L")).1 = some false ∧
    isSolved (applyMoveSequence [] ("R R R R")).1 = some false := by
  have hU : (applyMoveSequence [] ("U U U U")).1 = ["U", "U", "U", "U"] := by decide
  have hD : (applyMoveSequence [] ("D D D D")).1 = ["D", "D", "D", "D"] := by decide
  have hF : (applyMoveSequence [] ("F F F F")).1 = ["F", "F", "F", "F"] := by decide
  have hB : (applyMoveSequence [] ("B B B B")).1 = ["B", "B", "B", "B"] := by decide
  have hL : (applyMoveSequence [] ("L L L L")).1 = ["L", "L", "L", "L"] := by decide
  have hR : (applyMoveSequence [] ("R R R R")).1 = ["R", "R", "R", "R"] := by decide
  refine ⟨?_, ?_, ?_, ?_, ?_, ?_⟩
  · rw [hU]
    exact isSolved_false_after_first_move _ u_move _ rfl (by decide) (by decide)
  · rw [hD]
    exact isSolved_false_after_first_move _ d_move _ rfl (by decide) (by decide)
  · rw [hF]
    exact isSolved_false_after_first_move _ f_move _ rfl (by decide) (by decide)
  · rw [hB]
    exact isSolved_false_after_first_move _ b_move _ rfl (by decide) (by decide)
  · rw [hL]
    exact isSolved_false_after_first_move _ l_move _ rfl (by decide) (by decide)
  · rw [hR]
    exact isSolved_false_after_first_move _ r_move _ rfl (by decide) (by decide)

/-- Claim C3 (code bug shown): applying "R U R' U'" six times to a fresh
engine does NOT leave the cube solved — `isSolved` is `false` for the same
array-growth reason as in `four_quarter_turns_not_solved`. -/
theorem sexy_move_six_times_not_solved :
    isSolved ((fun h => (applyMoveSequence h ("R U R\x27 U\x27")).1)^[6] [])
      = some false := by
  have hh : ((fun h => (applyMoveSequence h ("R U R\x27 U\x27")).1)^[6] [])
      = ["R", "U", "R\x27", "U\x27",
       "R", "U", "R\x27", "U\x27",
       "R", "U", "R\x27", "U\x27",
       "R", "U", "R\x27", "U\x27",
       "R", "U", "R\x27", "U\x27",
       "R", "U", "R\x27", "U\x27"] := by decide
  rw [hh]
  exact isSolved_false_after_first_move _ r_move _ rfl (by decide) (by decide)

/-- Computed per-face value of the `"URFDLB".indexOf` subterm of `S`. -/
def faceIdx : Face → Nat
  | .U => 0
  | .R => 1
  | .F => 2
  | .D => 3
  | .L => 4
  | .B => 5

/-- Evaluation of the `indexOf` subterm inside `S`. -/
theorem S_eq (f : Face) (i : Nat) : S f i = faceIdx f * 9 + i - 1 := by
  cases f <;> rfl

/-- Claim C4 (confirmed): `S` is a total bijection from the 6-face-by-9-position
domain onto `0..53`: it lands in range, no two distinct (face, position) pairs
collide, and every index below 54 is reached. -/
theorem S_total_bijection :
    (∀ (f : Face) (i : Nat), 1 ≤ i → i ≤ 9 → S f i < 54) ∧
    (∀ (f₁ : Face) (i₁ : Nat) (f₂ : Face) (i₂ : Nat),
      1 ≤ i₁ → i₁ ≤ 9 → 1 ≤ i₂ → i₂ ≤ 9 →
      S f₁ i₁ = S f₂ i₂ → f₁ = f₂ ∧ i₁ = i₂) ∧
    (∀ k : Nat, k < 54 → ∃ (f : Face) (i : Nat), 1 ≤ i ∧ i ≤ 9 ∧ S f i = k) := by
  refine ⟨?_, ?_, ?_⟩
  · intro f i h1 h9
    rw [S_eq]
    cases f <;> simp only [faceIdx] <;> omega
  · intro f₁ i₁ f₂ i₂ ha hb hc' hd heq
    rw [S_eq, S_eq] at heq
    cases f₁ <;> cases f₂ <;> simp only [faceIdx] at heq <;>
      first
        | exact ⟨rfl, by omega⟩
        | exact absurd heq (by omega)
  · intro k hk
    have hq : k / 9 < 6 := by omega
    have hface : ∀ q, q < 6 → ∃ f : Face, faceIdx f = q := by decide
    obtain ⟨f, hf⟩ := hface _ hq
    refine ⟨f, k % 9 + 1, by omega, by omega, ?_⟩
    rw [S_eq, hf]
    omega

/-- Witness for C4: position `(U, 3)` is addressed in range. -/
theorem S_total_bijection_witness : S Face.U 3 < 54 :=
  S_total_bijection.1 Face.U 3 (by decide) (by decide)

/-- Claim C5 (confirmed): on a fresh engine, `applyMoveSequence` of
"R U R' U' F2 B'" followed by `getMoveHistory` yields exactly those six
tokens in input order. -/
theorem move_history_roundtrip :
    getMoveHistory (applyMoveSequence [] ("R U R\x27 U\x27 F2 B\x27")).1
      = ["R", "U", "R\x27", "U\x27", "F2", "B\x27"] := by
  decide

/-- Claim C6 (code bug shown): `scramble` does clear the history and
`scramble(0)` is a valid identity reset, but for `n = 1` (first random pick
accepted by the loop, e.g. face key "0" with empty modifier — any pick gives
the same result) the history afterwards has 0 tokens, not 1: the "faces" are
`Object.keys` of the runtime 6-entry array, i.e. digit strings, so the
generated sequence parses to zero moves and only the warning fires. -/
theorem scramble_history_empty :
    scramble ["R"] [] = ([], false) ∧
    scramble ["R"] [(0, 0)] = ([], true) ∧
    (scramble ["R"] [(0, 0)]).1.length = 0 := by
  decide

/-- Claim C7 (confirmed): `applyMoveSequence` is total (never throws); it
appends exactly the regex's tokens — each one matching `[RLUDFB]['2]?` — in
input order, drops everything else, and when the trimmed input is non-empty
yet yields zero tokens it only warns (flag `true`) and leaves the history
unchanged. -/
theorem applyMoveSequence_total_parse (h : List String) (s : String) :
    (applyMoveSequence h s).1 = h ++ matchMoves (jsTrim s.toList) ∧
    (∀ t ∈ matchMoves (jsTrim s.toList), t ∈ validMoves) ∧
    (matchMoves (jsTrim s.toList) = [] → jsTrim s.toList ≠ [] →
      (applyMoveSequence h s).1 = h ∧ (applyMoveSequence h s).2 = true) := by
  refine ⟨applyMoveSequence_fst h s, fun t ht => matchMoves_valid _ t ht, ?_⟩
  intro hm htr
  refine ⟨?_, applyMoveSequence_snd_true h s hm htr⟩
  rw [applyMoveSequence_fst, hm, List.append_nil]

/-- Witness for C7: the garbled input "xyz" produces no token, no exception,
an unchanged history, and the warning flag. -/
theorem applyMoveSequence_total_parse_witness :
    (applyMoveSequence [] ("xyz")).1 = [] ∧
    (applyMoveSequence [] ("xyz")).2 = true :=
  (applyMoveSequence_total_parse [] ("xyz")).2.2 (by decide) (by decide)

/-- Claim C8 (code bug shown): on a fresh engine after "R", the six queried
stickers are all `undefined` (`none`), not the blue/white colour codes the
spec expects: the R-move 4-cycles pull values from slots ≥ 9 of the 6-entry
runtime constant, which read as `undefined`. -/
theorem sticker_after_R_undefined :
    getStickerAt (applyMoveSequence [] ("R")).1 Face.U 3 = some none ∧
    getStickerAt (applyMoveSequence [] ("R")).1 Face.U 6 = some none ∧
    getStickerAt (applyMoveSequence [] ("R")).1 Face.U 9 = some none ∧
    getStickerAt (applyMoveSequence [] ("R")).1 Face.F 3 = some none ∧
    getStickerAt (applyMoveSequence [] ("R")).1 Face.F 6 = some none ∧
    getStickerAt (applyMoveSequence [] ("R")).1 Face.F 9 = some none := by
  decide

/-- Claim C9 (code bug shown): already on the fresh engine, `getCurrentState`
does not return 54 stickers with each colour appearing 9 times — it returns
the 6-entry runtime constant whose cells are nine-character strings. -/
theorem fresh_state_shape :
    getCurrentState [] = some solved_cube ∧
    solved_cube.length = 6 ∧
    solved_cube = [some ("YYYYYYYYY"), some ("RRRRRRRRR"), some ("BBBBBBBBB"),
      some ("WWWWWWWWW"), some ("OOOOOOOOO"), some ("GGGGGGGGG")] := by
  decide

/-- Claim C10 (confirmed): every history reachable through the public
interface (construction, `applyMoveSequence`, `reset`, `scramble`) contains
only the 18 valid move tokens, so the dispatcher's throwing default branch is
unreachable and `getCurrentState`/`isSolved` never throw. -/
theorem reachable_histories_safe (h : List String) (hr : Reachable h) :
    (∀ t ∈ h, t ∈ validMoves) ∧
    (getCurrentState h).isSome ∧ (isSolved h).isSome := by
  have hv := reachable_tokens_valid hr
  have hs := getCurrentState_isSome h hv
  refine ⟨hv, hs, ?_⟩
  simpa [isSolved, Option.isSome_map] using hs

/-- Witness for C10: the reachable history built by applying "R" to a fresh
engine derives a state and a solved-check without throwing. -/
theorem reachable_histories_safe_witness :
    (getCurrentState (applyMoveSequence [] ("R")).1).isSome ∧
    (isSolved (applyMoveSequence [] ("R")).1).isSome :=
  ⟨(reachable_histories_safe _ (Reachable.applySeq [] ("R") Reachable.init)).2.1,
   (reachable_histories_safe _ (Reachable.applySeq [] ("R") Reachable.init)).2.2⟩

end RubiksCubeMcp
